/-
Verification of the MangaHub multi-transport notification layer.

The Go sources embedded here:
  * `internal/tcp`      — Stream broadcast server (`TCP` namespace below);
  * `internal/udp`      — Datagram notification server (`UDP` namespace);
  * `internal/websocket`— Bidirectional hub (`WS` namespace);
  * `internal/progress` and `internal/manga` — the HTTP write-path handlers
    that trigger cross-protocol fan-out (`API` namespace).

Modelling conventions:
  * Go `map[string]*T` registries become association lists
    `List (String × T)`; insertion overwrites the old binding, deletion is
    a filter, exactly as Go `m[k] = v` / `delete(m, k)` behave.
  * Wall-clock instants (`time.Now()`) are abstract `Nat` tick counts, in
    seconds; RFC3339 formatting is dropped and the tick itself is stored.
  * Network writes cannot be executed, so every function performing writes
    takes an oracle `writeOk : String → Bool` saying whether the write to a
    given destination succeeds; the function returns the sends it attempted.
  * Closing a closed Go channel panics; `Stop` therefore returns
    `Except GoPanic _` with the panic made explicit.
-/
import Mathlib

set_option linter.unusedVariables false

/-- A Go panic that the embedded code can raise. -/
inductive GoPanic where
  | closeOfClosedChannel
  deriving Repr, DecidableEq

/-- A JSON value as far as the embedded servers inspect one.  The Go code only
ever runs string type-assertions (`v.(string)`) on decoded fields, so arrays
and objects — whose contents are never looked at — are collapsed into the
single constructor `composite`. -/
inductive JValue where
  | str (s : String)
  | num (n : Int)
  | boolean (b : Bool)
  | null
  | composite
  deriving Repr, DecidableEq

/-- Go `v, ok := x.(string)`: `some s` when the field is present and a JSON
string, `none` otherwise. -/
def JValue.asString : Option JValue → Option String
  | some (.str s) => some s
  | _ => none

namespace GoMap

/-- Go map read `m[k]`. -/
def find (m : List (String × α)) (k : String) : Option α :=
  (m.find? (fun p => p.1 == k)).map (·.2)

/-- Go map write `m[k] = v`: any previous binding for `k` is overwritten. -/
def insert (m : List (String × α)) (k : String) (v : α) : List (String × α) :=
  (k, v) :: m.filter (fun p => p.1 ≠ k)

/-- Go `delete(m, k)`: removing an absent key is a no-op. -/
def erase (m : List (String × α)) (k : String) : List (String × α) :=
  m.filter (fun p => p.1 ≠ k)

/-- Keys of the map. -/
def keys (m : List (String × α)) : List String :=
  m.map (·.1)

end GoMap

namespace TCP

/-- `tcp.Message` — the length-framed JSON envelope of the Stream protocol.
The `Data interface{}` field only ever carries the error string
`"Unknown message type"`, so it is embedded as a `String`. -/
structure Message where
  type      : String
  userID    : String := ""
  mangaID   : String := ""
  chapter   : Int := 0
  data      : String := ""
  timestamp : Nat := 0
  deriving Repr, DecidableEq

/-- `tcp.Client` — one accepted connection.  `ID` is
`conn.RemoteAddr().String()` and keys the registry. -/
structure Client where
  id       : String
  userID   : String := ""
  lastSeen : Nat := 0
  deriving Repr, DecidableEq

/-- `tcp.Server` — the registry plus the shutdown bookkeeping `Stop` touches:
whether the `done` channel has been closed and whether the listener was
closed. -/
structure Server where
  address        : String
  clients        : List (String × Client) := []
  doneClosed     : Bool := false
  listenerClosed : Bool := false
  deriving Repr, DecidableEq

/-- `tcp.NewServer`. -/
def newServer (address : String) : Server :=
  { address := address }

/-- `Server.Stop`: `close(s.done)` panics if `done` is already closed
(second call); otherwise the listener is closed, every client connection is
closed and the registry is replaced by a fresh empty map. -/
def stop (s : Server) : Except GoPanic Server :=
  if s.doneClosed then
    .error .closeOfClosedChannel
  else
    .ok { s with doneClosed := true, listenerClosed := true, clients := [] }

/-- `acceptConnections` body for one accepted connection: the new client is
keyed by its remote address and inserted into the registry. -/
def acceptClient (s : Server) (remoteAddr : String) (now : Nat) : Server :=
  let c : Client := { id := remoteAddr, userID := "", lastSeen := now }
  { s with clients := GoMap.insert s.clients remoteAddr c }

/-- The deferred cleanup in `handleClient`: `delete(s.clients, client.ID)`
followed by closing the connection. -/
def removeClient (s : Server) (clientID : String) : Server :=
  { s with clients := GoMap.erase s.clients clientID }

/-- `Server.broadcastMessage`: snapshot the registry minus `excludeID` under
the read lock, then write the marshalled message to each snapshot entry with
a 5-second write deadline; a failed write deletes that client from the
registry and closes its connection, and iteration continues.  Returns the
updated registry together with the list of clients the message actually
reached. -/
def broadcastMessage (clients : List (String × Client)) (msg : Message)
    (excludeID : String) (writeOk : String → Bool) :
    List (String × Client) × List (String × Message) :=
  let snapshot := clients.filter (fun p => p.1 ≠ excludeID)
  let delivered := (snapshot.filter (fun p => writeOk p.1)).map
    (fun p => (p.1, msg))
  let remaining := clients.filter (fun p => p.1 = excludeID ∨ writeOk p.1)
  (remaining, delivered)

/-- `Server.BroadcastProgress`: builds the `progress_broadcast` envelope and
broadcasts it with an empty exclude ID. -/
def BroadcastProgress (s : Server) (userID mangaID : String) (chapter : Int)
    (now : Nat) (writeOk : String → Bool) :
    Server × List (String × Message) :=
  let msg : Message :=
    { type := "progress_broadcast", userID := userID, mangaID := mangaID,
      chapter := chapter, timestamp := now }
  let r := broadcastMessage s.clients msg "" writeOk
  ({ s with clients := r.1 }, r.2)

/-- One iteration of the `handleClient` read loop after a successful decode
of `msg` from client `cid` at instant `now`: refresh `LastSeen`, stamp the
message, dispatch on `msg.Type`.  Returns the updated server, the reply
written back to the sender, and the broadcast deliveries (non-empty only for
`progress_update`). -/
def handleClientMsg (s : Server) (cid : String) (msg : Message) (now : Nat)
    (writeOk : String → Bool) :
    Server × Message × List (String × Message) :=
  let stamped := { msg with timestamp := now }
  let refreshed := s.clients.map (fun p =>
    if p.1 = cid then (p.1, { p.2 with lastSeen := now }) else p)
  if msg.type = "register" then
    let withUser := refreshed.map (fun p =>
      if p.1 = cid then (p.1, { p.2 with userID := msg.userID }) else p)
    ({ s with clients := withUser },
     { type := "registered", userID := msg.userID, timestamp := now }, [])
  else if msg.type = "progress_update" then
    let r := broadcastMessage refreshed stamped cid writeOk
    ({ s with clients := r.1 },
     { type := "progress_ack", timestamp := now }, r.2)
  else if msg.type = "ping" then
    ({ s with clients := refreshed },
     { type := "pong", timestamp := now }, [])
  else
    ({ s with clients := refreshed },
     { type := "error", data := "Unknown message type", timestamp := now }, [])

/-- `Server.GetClientCount`. -/
def GetClientCount (s : Server) : Nat :=
  s.clients.length

/-- Read-inactivity timeout of the Stream protocol, seconds
(`SetReadDeadline(time.Now().Add(60 * time.Second))`). -/
def readTimeoutSeconds : Nat := 60

/-- Per-send write deadline of the Stream protocol, seconds
(`SetWriteDeadline(time.Now().Add(5 * time.Second))`). -/
def writeDeadlineSeconds : Nat := 5

end TCP

namespace UDP

/-- `udp.Notification` — the outbound datagram envelope.  The
`Data interface{}` field is a JSON object in both uses
(`map[string]string` for `new_manga`, `map[string]interface{}` for
`update`), embedded as a field list. -/
structure Notification where
  type      : String
  message   : String
  data      : List (String × JValue) := []
  timestamp : Nat := 0
  deriving Repr, DecidableEq

/-- `udp.RegisteredClient`.  `address` is `Address.String()`, which is also
the registry key the client was stored under. -/
structure RegisteredClient where
  address  : String
  lastSeen : Nat
  userID   : String
  deriving Repr, DecidableEq

/-- `udp.Server`. -/
structure Server where
  address       : String
  clients       : List (String × RegisteredClient) := []
  doneClosed    : Bool := false
  connClosed    : Bool := false
  broadcastIP   : String := ""
  broadcastPort : Nat := 0
  deriving Repr, DecidableEq

/-- `udp.NewServer`. -/
def newServer (address broadcastIP : String) (broadcastPort : Nat) : Server :=
  { address := address, broadcastIP := broadcastIP,
    broadcastPort := broadcastPort }

/-- `Server.Stop`: `close(s.done)` panics when `done` is already closed;
otherwise the socket is closed and the registry replaced by a fresh empty
map. -/
def stop (s : Server) : Except GoPanic Server :=
  if s.doneClosed then
    .error .closeOfClosedChannel
  else
    .ok { s with doneClosed := true, connClosed := true, clients := [] }

/-- Per-datagram write deadline, seconds
(`SetWriteDeadline(time.Now().Add(2 * time.Second))`). -/
def writeDeadlineSeconds : Nat := 2

/-- Sweep period of `cleanupInactiveClients`, seconds
(`time.NewTicker(30 * time.Second)`). -/
def cleanupIntervalSeconds : Nat := 30

/-- Liveness TTL, seconds (`now.Sub(client.LastSeen) > 2*time.Minute`). -/
def clientTTLSeconds : Nat := 120

/-- `Server.sendNotification`: one `WriteToUDP` with a 2-second deadline; on
failure the destination is deleted from the registry.  Returns the updated
registry and the datagram actually delivered, if any. -/
def sendNotification (clients : List (String × RegisteredClient))
    (n : Notification) (addr : String) (sendOk : String → Bool) :
    List (String × RegisteredClient) × Option (String × Notification) :=
  if sendOk addr then
    (clients, some (addr, n))
  else
    (GoMap.erase clients addr, none)

/-- `Server.handleMessage`: drop the datagram unless `msg["type"]` is a JSON
string; `register` inserts/overwrites the sender's handle (a missing or
non-string `user_id` registers with the empty user ID) and answers
`registered`; `heartbeat` refreshes `LastSeen` only for an existing entry;
any other type string falls through the `switch` with no effect.  Returns
the updated server and the reply delivered to the sender, if any. -/
def handleMessage (s : Server) (msg : List (String × JValue))
    (clientAddr : String) (now : Nat) (sendOk : String → Bool) :
    Server × Option (String × Notification) :=
  match JValue.asString (GoMap.find msg "type") with
  | none => (s, none)
  | some msgType =>
    if msgType = "register" then
      let userID := (JValue.asString (GoMap.find msg "user_id")).getD ""
      let entry : RegisteredClient :=
        { address := clientAddr, lastSeen := now, userID := userID }
      let registered := GoMap.insert s.clients clientAddr entry
      let response : Notification :=
        { type := "registered",
          message := "Successfully registered for notifications",
          timestamp := now }
      let r := sendNotification registered response clientAddr sendOk
      ({ s with clients := r.1 }, r.2)
    else if msgType = "heartbeat" then
      ({ s with clients := s.clients.map (fun p =>
          if p.1 = clientAddr then (p.1, { p.2 with lastSeen := now })
          else p) }, none)
    else
      (s, none)

/-- `Server.Broadcast`: snapshot the registry under the read lock; if it is
empty, return at once; otherwise attempt one deadline-bounded send per
snapshot entry, collecting the addresses that failed, and only after the
pass delete the failed addresses from the registry.  Returns the updated
server, the list of `(address, deadline)` send attempts in snapshot order,
and the collected failed addresses. -/
def Broadcast (s : Server) (n : Notification) (sendOk : String → Bool) :
    Server × List (String × Nat) × List String :=
  let snapshot := s.clients.map (·.2)
  if snapshot.isEmpty then
    (s, [], [])
  else
    let attempts := snapshot.map (fun c => (c.address, writeDeadlineSeconds))
    let failedClients :=
      (snapshot.filter (fun c => ¬ sendOk c.address)).map (·.address)
    let remaining :=
      if failedClients.isEmpty then s.clients
      else s.clients.filter (fun p => ¬ failedClients.contains p.1)
    ({ s with clients := remaining }, attempts, failedClients)

/-- `Server.BroadcastNewManga`. -/
def BroadcastNewManga (s : Server) (mangaID title : String) (now : Nat)
    (sendOk : String → Bool) : Server × List (String × Nat) × List String :=
  let n : Notification :=
    { type := "new_manga", message := "New manga added: " ++ title,
      data := [("manga_id", .str mangaID), ("title", .str title)],
      timestamp := now }
  Broadcast s n sendOk

/-- `Server.BroadcastUpdate`. -/
def BroadcastUpdate (s : Server) (message : String)
    (data : List (String × JValue)) (now : Nat) (sendOk : String → Bool) :
    Server × List (String × Nat) × List String :=
  let n : Notification :=
    { type := "update", message := message, data := data, timestamp := now }
  Broadcast s n sendOk

/-- One tick of `cleanupInactiveClients`: under the write lock, delete every
entry whose `LastSeen` lies more than `clientTTLSeconds` before `now`. -/
def cleanupTick (s : Server) (now : Nat) : Server :=
  { s with clients := s.clients.filter (fun p =>
      ¬ now - p.2.lastSeen > clientTTLSeconds) }

/-- `Server.GetClientCount`. -/
def GetClientCount (s : Server) : Nat :=
  s.clients.length

end UDP

namespace WS

/-- `websocket.Message` — the Hub's JSON frame.  `Data interface{}` is never
populated by the server code, so it is omitted. -/
structure Message where
  type      : String
  userID    : String := ""
  username  : String := ""
  content   : String := ""
  timestamp : Nat := 0
  deriving Repr, DecidableEq

/-- Capacity of a client's `Send` channel (`make(chan Message, 256)`). -/
def sendQueueCapacity : Nat := 256

/-- Keepalive ping period of `writePump`, seconds
(`time.NewTicker(54 * time.Second)`). -/
def pingIntervalSeconds : Nat := 54

/-- Read-inactivity timeout, seconds. -/
def readTimeoutSeconds : Nat := 60

/-- Per-frame write deadline, seconds. -/
def writeDeadlineSeconds : Nat := 10

/-- `websocket.Client` — one upgraded connection.  `cid` stands for the
pointer identity of the `*Client`, which is what keys the hub's
`map[*Client]bool`; `id` is the `r.RemoteAddr` label; `send` holds the
buffered contents of the `Send` channel. -/
structure HubClient where
  cid      : Nat
  id       : String
  userID   : String := ""
  username : String := ""
  send     : List Message := []
  deriving Repr, DecidableEq

/-- `websocket.Hub`: the client set plus, for auditing the
close-exactly-once discipline, the ordered log of `close(client.Send)`
calls the hub has performed. -/
structure Hub where
  clients  : List HubClient := []
  closeLog : List Nat := []
  deriving Repr, DecidableEq

/-- `websocket.NewHub`. -/
def newHub : Hub := {}

/-- Pointer identities of the current client set. -/
def cids (h : Hub) : List Nat :=
  h.clients.map (·.cid)

/-- One client's fate under the non-blocking offer
`select { case client.Send <- message: default: delete + close }` used by
both the `broadcast` case of `Hub.Run` and `Hub.broadcastToOthers`:
excluded clients are left untouched, a client with buffer room gets the
message appended, and a client with a full buffer is dropped (`none`). -/
def offerResult (m : Message) (excl : Option Nat) (c : HubClient) :
    Option HubClient :=
  if excl = some c.cid then some c
  else if c.send.length < sendQueueCapacity then
    some { c with send := c.send ++ [m] }
  else none

/-- The full offer pass over a snapshot of the client set: every snapshot
entry is visited exactly once — a full queue evicts that client (delete from
the set, `close(client.Send)` recorded) and the pass continues with the
remaining entries.  Returns the surviving clients and the cids closed. -/
def offerPass (m : Message) (excl : Option Nat) :
    List HubClient → List HubClient × List Nat
  | [] => ([], [])
  | c :: rest =>
    let r := offerPass m excl rest
    match offerResult m excl c with
    | some c1 => (c1 :: r.1, r.2)
    | none => (r.1, c.cid :: r.2)

/-- The `broadcast` case of `Hub.Run`: snapshot the client set under the
read lock, then offer the message to every snapshot entry with no
exclusion. -/
def hubBroadcastCase (h : Hub) (m : Message) : Hub :=
  let r := offerPass m none h.clients
  { clients := r.1, closeLog := h.closeLog ++ r.2 }

/-- `Hub.broadcastToOthers`: identical offer pass, but a non-nil `exclude`
pointer is skipped when building the snapshot. -/
def broadcastToOthers (h : Hub) (m : Message) (exclude : Option Nat) : Hub :=
  let r := offerPass m exclude h.clients
  { clients := r.1, closeLog := h.closeLog ++ r.2 }

/-- The `register` case of `Hub.Run`: insert the handle into the set, then
notify every OTHER client with `user_joined`. -/
def hubRegister (h : Hub) (c : HubClient) (now : Nat) : Hub :=
  let h1 : Hub := { h with clients := h.clients ++ [c] }
  let welcomeMsg : Message :=
    { type := "user_joined", userID := c.userID, username := c.username,
      timestamp := now }
  broadcastToOthers h1 welcomeMsg (some c.cid)

/-- The `unregister` case of `Hub.Run`: delete the handle and close its
`Send` channel only if it is still in the set, then notify the remaining
clients with `user_left` (the Go code passes a nil exclude here, and it
broadcasts whether or not the handle was still present). -/
def hubUnregister (h : Hub) (c : HubClient) (now : Nat) : Hub :=
  let h1 : Hub :=
    if h.clients.any (fun x => x.cid == c.cid) then
      { clients := h.clients.filter (fun x => x.cid ≠ c.cid),
        closeLog := h.closeLog ++ [c.cid] }
    else h
  let leaveMsg : Message :=
    { type := "user_left", userID := c.userID, username := c.username,
      timestamp := now }
  broadcastToOthers h1 leaveMsg none

/-- Blocking channel send `c.Send <- m` as used by `readPump` replies:
`some` appends when the buffer has room, `none` models the goroutine
blocking on a full buffer. -/
def blockingSend (q : List Message) (m : Message) : Option (List Message) :=
  if q.length < sendQueueCapacity then some (q ++ [m]) else none

/-- The `register` case of `Client.readPump` for the connection `cid`:
store the submitted `user_id`/`username` on the client through its pointer
(hence in the hub's set) and blocking-send the echoed `registered` reply on
the client's own channel.  `none` when `cid` is not in the set or the reply
would block. -/
def readPumpRegister (h : Hub) (cid : Nat) (frame : Message) (now : Nat) :
    Option Hub :=
  match h.clients.find? (fun x => x.cid == cid) with
  | none => none
  | some c =>
    let c1 : HubClient :=
      { c with userID := frame.userID, username := frame.username }
    let response : Message :=
      { type := "registered", userID := c1.userID, username := c1.username,
        timestamp := now }
    match blockingSend c1.send response with
    | none => none
    | some q =>
      some { h with clients := h.clients.map (fun x =>
        if x.cid = cid then { c1 with send := q } else x) }

/-- The `chat` case of `Client.readPump`: the broadcast message is rebuilt
from the connection's server-known `UserID`/`Username` plus the submitted
`Content` — the frame's own `user_id`/`username` are never read — and handed
to the coordinator's `broadcast` channel, whose handler is
`hubBroadcastCase`. -/
def readPumpChat (h : Hub) (c : HubClient) (frame : Message) (now : Nat) :
    Hub :=
  let broadcastMsg : Message :=
    { type := "chat", userID := c.userID, username := c.username,
      content := frame.content, timestamp := now }
  hubBroadcastCase h broadcastMsg

/-- `Hub.GetClientCount`. -/
def GetClientCount (h : Hub) : Nat :=
  h.clients.length

/-- The coordinator events `Hub.Run` can process.  `register` corresponds to
`hub.register <- client` (a freshly allocated `*Client`), `unregister` to
`hub.unregister <- client`, `broadcast` to `hub.broadcast <- message`. -/
inductive HubOp where
  | register (c : HubClient)
  | unregister (c : HubClient)
  | broadcast (m : Message)
  deriving Repr

/-- One iteration of the `Hub.Run` select loop. -/
def hubStep (now : Nat) (h : Hub) : HubOp → Hub
  | .register c => hubRegister h c now
  | .unregister c => hubUnregister h c now
  | .broadcast m => hubBroadcastCase h m

/-- Freshness side condition for a coordinator event: a `register` event
carries a freshly allocated `*Client`, whose pointer identity can be neither
a current member nor a previously closed one. -/
def opFresh (h : Hub) : HubOp → Prop
  | .register c => c.cid ∉ cids h ∧ c.cid ∉ h.closeLog
  | .unregister _ => True
  | .broadcast _ => True

/-- The registry/close-discipline invariant of the hub: pointer identities
are unique in the client set, no current member has had its channel closed,
and no channel has ever been closed twice. -/
def HubInv (h : Hub) : Prop :=
  (cids h).Nodup ∧
  (∀ n, n ∈ cids h → n ∉ h.closeLog) ∧
  (∀ n, h.closeLog.count n ≤ 1)

end WS

namespace API

/-- Outcome of a gin handler as far as these claims observe it: the HTTP
status and the JSON body class written by `c.JSON`. -/
inductive HttpBody where
  | errorMsg (msg : String)
  | progressBody (userID mangaID : String) (chapter : Int)
  | mangaBody (id title : String)
  deriving Repr, DecidableEq

/-- The `(status, body)` pair a handler writes. -/
structure HttpResponse where
  status : Nat
  body   : HttpBody
  deriving Repr, DecidableEq

/-- The JSON body of `PUT /api/progress` after `BindJSON`. -/
structure UpdateProgressRequest where
  mangaID : String
  chapter : Int
  deriving Repr, DecidableEq

/-- The JSON body of `POST /api/manga` after `BindJSON`. -/
structure CreateMangaRequest where
  id    : String
  title : String
  deriving Repr, DecidableEq

/-- `ProgressHandler.UpdateProgress`.  Inputs: the authenticated user ID
(`""` when unauthenticated), the bound request body (`none` on bind
failure), whether `Repo.UpdateProgress` succeeded, and the optionally
configured TCP and UDP servers with their send oracles.  Output: the HTTP
response plus the (possibly updated) server states.  A `none` server means
that fan-out is skipped entirely. -/
def updateProgress (userID : String) (body : Option UpdateProgressRequest)
    (repoOk : Bool) (tcpServer : Option TCP.Server)
    (udpServer : Option UDP.Server) (tcpWriteOk udpSendOk : String → Bool)
    (now : Nat) : HttpResponse × Option TCP.Server × Option UDP.Server :=
  if userID = "" then
    ({ status := 401, body := .errorMsg "Unauthorized" },
     tcpServer, udpServer)
  else
    match body with
    | none =>
      ({ status := 400, body := .errorMsg "Invalid request body" },
       tcpServer, udpServer)
    | some req =>
      if ¬ repoOk then
        ({ status := 500, body := .errorMsg "Failed to update progress" },
         tcpServer, udpServer)
      else
        let tcpAfter := tcpServer.map (fun s =>
          (TCP.BroadcastProgress s userID req.mangaID req.chapter now
            tcpWriteOk).1)
        let udpAfter := udpServer.map (fun s =>
          (UDP.BroadcastUpdate s "Progress updated"
            [("user_id", .str userID), ("manga_id", .str req.mangaID),
             ("chapter", .num req.chapter)] now udpSendOk).1)
        ({ status := 200,
           body := .progressBody userID req.mangaID req.chapter },
         tcpAfter, udpAfter)

/-- `MangaHandler.CreateManga`.  Inputs mirror `updateProgress`; only a UDP
server may be configured here. -/
def createManga (body : Option CreateMangaRequest) (repoOk : Bool)
    (udpServer : Option UDP.Server) (udpSendOk : String → Bool) (now : Nat) :
    HttpResponse × Option UDP.Server :=
  match body with
  | none =>
    ({ status := 400, body := .errorMsg "Invalid request body" }, udpServer)
  | some req =>
    if ¬ repoOk then
      ({ status := 500, body := .errorMsg "Failed to create manga" },
       udpServer)
    else
      let udpAfter := udpServer.map (fun s =>
        (UDP.BroadcastNewManga s req.id req.title now udpSendOk).1)
      ({ status := 201, body := .mangaBody req.id req.title }, udpAfter)

end API

namespace GoMap

theorem erase_erase (m : List (String × α)) (k : String) :
    erase (erase m k) k = erase m k := by
  simp [erase, List.filter_filter]

theorem keys_nodup_filter (m : List (String × α)) (p : String × α → Bool)
    (h : (keys m).Nodup) : (keys (m.filter p)).Nodup := by
  unfold keys at h ⊢
  exact List.Nodup.sublist (List.Sublist.map (·.1) (List.filter_sublist m)) h

theorem keys_nodup_erase (m : List (String × α)) (k : String)
    (h : (keys m).Nodup) : (keys (erase m k)).Nodup :=
  keys_nodup_filter m _ h

theorem keys_nodup_insert (m : List (String × α)) (k : String) (v : α)
    (h : (keys m).Nodup) : (keys (insert m k v)).Nodup := by
  have h1 : (keys (m.filter (fun p => p.1 ≠ k))).Nodup :=
    keys_nodup_filter m _ h
  simp only [insert, keys, List.map_cons, List.nodup_cons]
  refine ⟨?_, h1⟩
  intro hmem
  rcases List.mem_map.mp hmem with ⟨q, hq, hq1⟩
  have hne := List.of_mem_filter hq
  simp only [decide_eq_true_eq] at hne
  exact hne hq1

end GoMap

namespace WS

theorem offerResult_cid (m : Message) (excl : Option Nat) (c c1 : HubClient)
    (h : offerResult m excl c = some c1) : c1.cid = c.cid := by
  unfold offerResult at h
  split at h
  · exact (Option.some_injective _ h) ▸ rfl
  · split at h
    · exact (Option.some_injective _ h) ▸ rfl
    · exact absurd h (by simp)

theorem offerPass_fst (m : Message) (excl : Option Nat)
    (l : List HubClient) :
    (offerPass m excl l).1 = l.filterMap (offerResult m excl) := by
  induction l with
  | nil => rfl
  | cons c rest ih =>
    simp only [offerPass, List.filterMap_cons]
    cases hoc : offerResult m excl c <;> simp [hoc, ih]

theorem offerPass_snd (m : Message) (excl : Option Nat)
    (l : List HubClient) :
    (offerPass m excl l).2 =
      (l.filter (fun c => (offerResult m excl c).isNone)).map (·.cid) := by
  induction l with
  | nil => rfl
  | cons c rest ih =>
    simp only [offerPass, List.filter_cons]
    cases hoc : offerResult m excl c <;> simp [hoc, ih]

theorem offerPass_fst_cids (m : Message) (excl : Option Nat)
    (l : List HubClient) :
    (offerPass m excl l).1.map (·.cid) =
      (l.filter (fun c => (offerResult m excl c).isSome)).map (·.cid) := by
  induction l with
  | nil => rfl
  | cons c rest ih =>
    simp only [offerPass, List.filter_cons]
    cases hoc : offerResult m excl c with
    | none => simp [hoc, ih]
    | some c1 =>
      simp only [hoc, Option.isSome_some, if_pos, List.map_cons, ih,
        cond_true]
      exact congrArg (· :: _) (offerResult_cid m excl c c1 hoc)

theorem offerPass_fst_cids_sublist (m : Message) (excl : Option Nat)
    (l : List HubClient) :
    ((offerPass m excl l).1.map (·.cid)).Sublist (l.map (·.cid)) := by
  rw [offerPass_fst_cids]
  exact List.Sublist.map (·.cid) (List.filter_sublist l)

theorem offerPass_snd_sublist (m : Message) (excl : Option Nat)
    (l : List HubClient) :
    ((offerPass m excl l).2).Sublist (l.map (·.cid)) := by
  rw [offerPass_snd]
  exact List.Sublist.map (·.cid) (List.filter_sublist l)

theorem offerPass_disjoint (m : Message) (excl : Option Nat)
    (l : List HubClient) (hnd : (l.map (·.cid)).Nodup) :
    ∀ n, n ∈ (offerPass m excl l).1.map (·.cid) →
      n ∉ (offerPass m excl l).2 := by
  intro n h1 h2
  rw [offerPass_fst_cids] at h1
  rw [offerPass_snd] at h2
  rcases List.mem_map.mp h1 with ⟨a, ha, ha1⟩
  rcases List.mem_map.mp h2 with ⟨b, hb, hb1⟩
  have hsa : (offerResult m excl a).isSome := by
    simpa using List.of_mem_filter ha
  have hnb : (offerResult m excl b).isNone := by
    simpa using List.of_mem_filter hb
  have hab : a = b :=
    List.inj_on_of_nodup_map hnd (List.mem_of_mem_filter ha)
      (List.mem_of_mem_filter hb) (ha1.trans hb1.symm)
  rw [hab] at hsa
  cases hres : offerResult m excl b with
  | none => rw [hres] at hsa; exact absurd hsa (by simp)
  | some c1 => rw [hres] at hnb; exact absurd hnb (by simp)

theorem hubInv_offer (h : Hub) (m : Message) (excl : Option Nat)
    (hinv : HubInv h) :
    HubInv { clients := (offerPass m excl h.clients).1,
             closeLog := h.closeLog ++ (offerPass m excl h.clients).2 } := by
  obtain ⟨hnd, hmemclose, hcount⟩ := hinv
  have hnd1 : (h.clients.map (·.cid)).Nodup := hnd
  refine ⟨?_, ?_, ?_⟩
  · exact List.Nodup.sublist (offerPass_fst_cids_sublist m excl h.clients)
      hnd1
  · intro n hn hmem
    have hnK : n ∈ cids h :=
      (offerPass_fst_cids_sublist m excl h.clients).mem hn
    rcases List.mem_append.mp hmem with hA | hB
    · exact hmemclose n hnK hA
    · exact offerPass_disjoint m excl h.clients hnd1 n hn hB
  · intro n
    rw [List.count_append]
    have hsnd_nd : ((offerPass m excl h.clients).2).Nodup :=
      List.Nodup.sublist (offerPass_snd_sublist m excl h.clients) hnd1
    by_cases hc : n ∈ (offerPass m excl h.clients).2
    · have hK : n ∈ cids h :=
        (offerPass_snd_sublist m excl h.clients).mem hc
      have h0 : h.closeLog.count n = 0 :=
        List.count_eq_zero.mpr (hmemclose n hK)
      have h1 : ((offerPass m excl h.clients).2).count n ≤ 1 :=
        List.nodup_iff_count_le_one.mp hsnd_nd n
      omega
    · have h0 : ((offerPass m excl h.clients).2).count n = 0 :=
        List.count_eq_zero.mpr hc
      have := hcount n
      omega

theorem hubInv_broadcastToOthers (h : Hub) (m : Message)
    (excl : Option Nat) (hinv : HubInv h) :
    HubInv (broadcastToOthers h m excl) :=
  hubInv_offer h m excl hinv

theorem hubInv_broadcastCase (h : Hub) (m : Message) (hinv : HubInv h) :
    HubInv (hubBroadcastCase h m) :=
  hubInv_offer h m none hinv

theorem cids_broadcastToOthers_sublist (h : Hub) (m : Message)
    (excl : Option Nat) :
    (cids (broadcastToOthers h m excl)).Sublist (cids h) :=
  offerPass_fst_cids_sublist m excl h.clients

theorem hubInv_register (h : Hub) (c : HubClient) (now : Nat)
    (hinv : HubInv h) (hfresh1 : c.cid ∉ cids h)
    (hfresh2 : c.cid ∉ h.closeLog) :
    HubInv (hubRegister h c now) := by
  apply hubInv_broadcastToOthers
  obtain ⟨hnd, hmemclose, hcount⟩ := hinv
  refine ⟨?_, ?_, hcount⟩
  · simp only [cids, List.map_append, List.map_cons, List.map_nil,
      List.nodup_append, List.nodup_cons, List.nodup_nil]
    refine ⟨hnd, by simp, ?_⟩
    intro n hn
    simp only [List.mem_singleton]
    intro hEq
    exact hfresh1 (hEq ▸ hn)
  · intro n hn
    simp only [cids, List.map_append, List.map_cons, List.map_nil,
      List.mem_append, List.mem_singleton] at hn
    rcases hn with hn | rfl
    · exact hmemclose n hn
    · exact hfresh2

theorem hubInv_unregister (h : Hub) (c : HubClient) (now : Nat)
    (hinv : HubInv h) :
    HubInv (hubUnregister h c now) := by
  apply hubInv_broadcastToOthers
  obtain ⟨hnd, hmemclose, hcount⟩ := hinv
  by_cases hpres : h.clients.any (fun x => x.cid == c.cid)
  · rw [if_pos hpres]
    refine ⟨?_, ?_, ?_⟩
    · have := List.Sublist.map (fun x : HubClient => x.cid)
        (List.filter_sublist (l := h.clients)
          (p := fun x => x.cid ≠ c.cid))
      exact List.Nodup.sublist this hnd
    · intro n hn
      simp only [cids] at hn
      rcases List.mem_map.mp hn with ⟨a, ha, ha1⟩
      have hane := List.of_mem_filter ha
      simp only [decide_eq_true_eq] at hane
      intro hmem
      rcases List.mem_append.mp hmem with hA | hB
      · exact hmemclose n
          (List.mem_map.mpr ⟨a, List.mem_of_mem_filter ha, ha1⟩) hA
      · rw [List.mem_singleton] at hB
        exact hane (ha1.trans hB)
    · intro n
      rw [List.count_append]
      by_cases hEq : n = c.cid
      · have hmemc : c.cid ∈ cids h := by
          rcases List.any_eq_true.mp hpres with ⟨x, hx, hx1⟩
          simp only [beq_iff_eq] at hx1
          exact List.mem_map.mpr ⟨x, hx, hx1⟩
        have h0 : h.closeLog.count n = 0 :=
          List.count_eq_zero.mpr (hEq ▸ hmemclose c.cid hmemc)
        have h1 : List.count n [c.cid] = 1 := by
          simp [hEq]
        omega
      · have h1 : List.count n [c.cid] = 0 :=
          List.count_eq_zero.mpr (by simpa using hEq)
        have := hcount n
        omega
  · rw [if_neg hpres]
    exact ⟨hnd, hmemclose, hcount⟩

theorem hubInv_hubStep (h : Hub) (now : Nat) (op : HubOp)
    (hinv : HubInv h) (hfresh : opFresh h op) :
    HubInv (hubStep now h op) := by
  cases op with
  | register c => exact hubInv_register h c now hinv hfresh.1 hfresh.2
  | unregister c => exact hubInv_unregister h c now hinv
  | broadcast m => exact hubInv_broadcastCase h m hinv

theorem cid_not_mem_after_unregister (h : Hub) (c : HubClient)
    (now : Nat) : c.cid ∉ cids (hubUnregister h c now) := by
  unfold hubUnregister
  by_cases hpres : h.clients.any (fun x => x.cid == c.cid)
  · rw [if_pos hpres]
    intro hmem
    have hin := (cids_broadcastToOthers_sublist _ _ _).mem hmem
    simp only [cids] at hin
    rcases List.mem_map.mp hin with ⟨a, ha, ha1⟩
    have hane := List.of_mem_filter ha
    simp only [decide_eq_true_eq] at hane
    exact hane ha1
  · rw [if_neg hpres]
    intro hmem
    have hin := (cids_broadcastToOthers_sublist _ _ _).mem hmem
    apply hpres
    simp only [cids] at hin
    rcases List.mem_map.mp hin with ⟨a, ha, ha1⟩
    exact List.any_eq_true.mpr ⟨a, ha, by simpa using ha1⟩

end WS


namespace UDP

theorem broadcast_attempts (l : List (String × RegisteredClient))
    (hl : ∀ p ∈ l, p.2.address = p.1) :
    (l.map (·.2)).map (fun c => (c.address, writeDeadlineSeconds)) =
      l.map (fun p => (p.1, writeDeadlineSeconds)) := by
  induction l with
  | nil => rfl
  | cons p rest ih =>
    have hp := hl p (List.mem_cons_self p rest)
    simp only [List.map_cons, hp]
    rw [ih (fun q hq => hl q (List.mem_cons_of_mem p hq))]

theorem broadcast_failed (l : List (String × RegisteredClient))
    (sendOk : String → Bool) (hl : ∀ p ∈ l, p.2.address = p.1) :
    ((l.map (·.2)).filter (fun c => ¬ sendOk c.address)).map (·.address) =
      (l.filter (fun p => ¬ sendOk p.1)).map (·.1) := by
  induction l with
  | nil => rfl
  | cons p rest ih =>
    have hp := hl p (List.mem_cons_self p rest)
    have ihr := ih (fun q hq => hl q (List.mem_cons_of_mem p hq))
    simp only [List.map_cons, List.filter_cons]
    by_cases hok : sendOk p.1
    · have hok2 : sendOk p.2.address = true := by rw [hp]; exact hok
      simp only [hok, hok2]
      simp only [decide_not] at ihr ⊢
      simpa using ihr
    · have hok2 : sendOk p.2.address = false := by
        rw [hp]; exact Bool.eq_false_iff.mpr (by simpa using hok)
      simp only [hok, hok2]
      simp only [decide_not] at ihr ⊢
      simp [hp]
      simpa using ihr

theorem broadcast_remaining (l : List (String × RegisteredClient))
    (sendOk : String → Bool) (failed : List String)
    (hfe : ∀ p ∈ l, (p.1 ∈ failed ↔ sendOk p.1 = false)) :
    l.filter (fun p => ¬ failed.contains p.1) =
      l.filter (fun p => sendOk p.1) := by
  apply List.filter_congr
  intro p hp
  by_cases hm : p.1 ∈ failed
  · have hs := (hfe p hp).mp hm
    simp [hm, hs]
  · have hs : sendOk p.1 = true := by
      by_contra hc
      exact hm ((hfe p hp).mpr (Bool.eq_false_iff.mpr (by simpa using hc)))
    simp [hm, hs]

end UDP

namespace UDP

theorem broadcast_eq (s : Server) (n : Notification)
    (sendOk : String → Bool)
    (haddr : ∀ p ∈ s.clients, p.2.address = p.1) :
    Broadcast s n sendOk =
      ({ s with clients := s.clients.filter (fun p => sendOk p.1) },
       s.clients.map (fun p => (p.1, writeDeadlineSeconds)),
       (s.clients.filter (fun p => ¬ sendOk p.1)).map (·.1)) := by
  have hfailed := broadcast_failed s.clients sendOk haddr
  have hattempts := broadcast_attempts s.clients haddr
  cases hcl : s.clients with
  | nil =>
    simp [Broadcast, hcl]
    rw [← hcl]
  | cons a l =>
    rw [hcl] at hfailed hattempts haddr
    simp only [Broadcast, hcl]
    rw [if_neg (by simp)]
    rw [hfailed, hattempts]
    by_cases hfe : (((a :: l).filter (fun p => ¬ sendOk p.1)).map
        (·.1)).isEmpty
    · rw [if_pos hfe]
      have hall : (a :: l).filter (fun p => sendOk p.1) = a :: l := by
        apply List.filter_eq_self.mpr
        intro p hp
        rw [List.isEmpty_iff] at hfe
        by_contra hno
        have hmem : p ∈ (a :: l).filter (fun p => ¬ sendOk p.1) :=
          List.mem_filter.mpr ⟨hp, by simpa using hno⟩
        have : p.1 ∈ ((a :: l).filter (fun p => ¬ sendOk p.1)).map
            (·.1) := List.mem_map.mpr ⟨p, hmem, rfl⟩
        rw [hfe] at this
        exact absurd this (List.not_mem_nil _)
      rw [hall]
    · rw [if_neg hfe]
      have hrem := broadcast_remaining (a :: l) sendOk
        (((a :: l).filter (fun p => ¬ sendOk p.1)).map (·.1))
        (by
          intro p hp
          constructor
          · intro hm
            rcases List.mem_map.mp hm with ⟨q, hq, hq1⟩
            have hqn := List.of_mem_filter hq
            simp only [decide_eq_true_eq] at hqn
            have hq2 : q.1 = p.1 := hq1
            rw [hq2] at hqn
            exact Bool.eq_false_iff.mpr (by simpa using hqn)
          · intro hs
            exact List.mem_map.mpr ⟨p,
              List.mem_filter.mpr ⟨hp, by simp [hs]⟩, rfl⟩)
      rw [hrem]

end UDP

/-- C5: Datagram `Broadcast` iterates a point-in-time snapshot of the
registry, attempts one send with the 2-second write deadline for every
snapshot entry (so a per-destination failure never aborts the remaining
attempts), collects the failing addresses during the pass, and removes
exactly those entries only after the full pass: the surviving registry is
the original one filtered by send success, and the registry read for the
sends is the unmodified snapshot.  `haddr` is the registration invariant
that each handle is keyed by its own address string. -/
theorem C5_datagram_broadcast_pass (s : UDP.Server) (n : UDP.Notification)
    (sendOk : String → Bool)
    (haddr : ∀ p ∈ s.clients, p.2.address = p.1) :
    UDP.writeDeadlineSeconds = 2 ∧
    (UDP.Broadcast s n sendOk).2.1 =
      s.clients.map (fun p => (p.1, UDP.writeDeadlineSeconds)) ∧
    (UDP.Broadcast s n sendOk).2.2 =
      (s.clients.filter (fun p => ¬ sendOk p.1)).map (·.1) ∧
    (UDP.Broadcast s n sendOk).1.clients =
      s.clients.filter (fun p => sendOk p.1) := by
  rw [UDP.broadcast_eq s n sendOk haddr]
  exact ⟨rfl, rfl, rfl, rfl⟩

/-- Witness for `C5_datagram_broadcast_pass` at a concrete two-client
registry where the send to the second client fails. -/
theorem C5_witness :
    (∀ p ∈ ({ address := "s", clients :=
        [("a:1", { address := "a:1", lastSeen := 0, userID := "u1" }),
         ("b:2", { address := "b:2", lastSeen := 0, userID := "u2" })] } :
          UDP.Server).clients, p.2.address = p.1) ∧
    (UDP.Broadcast
      { address := "s", clients :=
        [("a:1", { address := "a:1", lastSeen := 0, userID := "u1" }),
         ("b:2", { address := "b:2", lastSeen := 0, userID := "u2" })] }
      { type := "update", message := "m" }
      (fun k => k ≠ "b:2")).2.1 =
      [("a:1", 2), ("b:2", 2)] := by
  refine ⟨by decide, ?_⟩
  have h := C5_datagram_broadcast_pass
    { address := "s", clients :=
        [("a:1", { address := "a:1", lastSeen := 0, userID := "u1" }),
         ("b:2", { address := "b:2", lastSeen := 0, userID := "u2" })] }
    { type := "update", message := "m" }
    (fun k => k ≠ "b:2") (by decide)
  rw [h.2.1]
  rfl

/-- C9: one run of the Datagram liveness sweep (fixed 30-second ticker)
keeps exactly the entries whose `lastActivity` is at most 120 seconds old —
an entry is removed iff `now - lastSeen > 120`, independent of any broadcast
activity — and a heartbeat refreshes `lastActivity` to the heartbeat
instant, so an entry heartbeated within the TTL survives the next sweep. -/
theorem C9_liveness_sweep (s : UDP.Server) (now t : Nat) (addr : String)
    (sendOk : String → Bool) :
    UDP.cleanupIntervalSeconds = 30 ∧
    UDP.clientTTLSeconds = 120 ∧
    (∀ p, p ∈ (UDP.cleanupTick s now).clients ↔
      (p ∈ s.clients ∧ now - p.2.lastSeen ≤ 120)) ∧
    (∀ p, p ∈ ((UDP.handleMessage s [("type", JValue.str "heartbeat")]
        addr t sendOk).1).clients → p.1 = addr → p.2.lastSeen = t) ∧
    (now - t ≤ 120 →
      ∀ p, p ∈ ((UDP.handleMessage s [("type", JValue.str "heartbeat")]
          addr t sendOk).1).clients → p.1 = addr →
        p ∈ (UDP.cleanupTick ((UDP.handleMessage s
          [("type", JValue.str "heartbeat")] addr t sendOk).1)
            now).clients) := by
  have hmemTick : ∀ (s1 : UDP.Server) (p : String × UDP.RegisteredClient),
      p ∈ (UDP.cleanupTick s1 now).clients ↔
        (p ∈ s1.clients ∧ now - p.2.lastSeen ≤ 120) := by
    intro s1 p
    simp only [UDP.cleanupTick, List.mem_filter, decide_eq_true_eq,
      UDP.clientTTLSeconds]
    exact and_congr_right (fun h => by omega)
  have hhb : ((UDP.handleMessage s [("type", JValue.str "heartbeat")]
      addr t sendOk).1).clients = s.clients.map (fun p =>
        if p.1 = addr then (p.1, { p.2 with lastSeen := t }) else p) := by
    rfl
  have hfresh : ∀ p, p ∈ ((UDP.handleMessage s
      [("type", JValue.str "heartbeat")] addr t sendOk).1).clients →
      p.1 = addr → p.2.lastSeen = t := by
    intro p hp hkey
    rw [hhb] at hp
    rcases List.mem_map.mp hp with ⟨q, hq, hq1⟩
    by_cases hqa : q.1 = addr
    · rw [if_pos hqa] at hq1
      rw [← hq1]
    · rw [if_neg hqa] at hq1
      rw [← hq1] at hkey
      exact absurd hkey hqa
  refine ⟨rfl, rfl, hmemTick s, hfresh, ?_⟩
  intro httl p hp hkey
  exact (hmemTick _ p).mpr ⟨hp, by rw [hfresh p hp hkey]; exact httl⟩

/-- Witness for `C9_liveness_sweep`: a client registered at tick 0 and
heartbeated at tick 100 survives a sweep at tick 200. -/
theorem C9_witness :
    ("a:1", ({ address := "a:1", lastSeen := 100, userID := "u" } :
        UDP.RegisteredClient)) ∈
      (UDP.cleanupTick ((UDP.handleMessage
        { address := "s", clients :=
            [("a:1", { address := "a:1", lastSeen := 0, userID := "u" })] }
        [("type", JValue.str "heartbeat")] "a:1" 100
        (fun k => true)).1) 200).clients := by
  exact (C9_liveness_sweep
    { address := "s", clients :=
        [("a:1", { address := "a:1", lastSeen := 0, userID := "u" })] }
    200 100 "a:1" (fun k => true)).2.2.2.2 (by decide)
    ("a:1", { address := "a:1", lastSeen := 100, userID := "u" })
    (by decide) (by decide)

/-- C10: at the Datagram interface, a `register` datagram whose payload has
no string `user_id` still registers the sender's address, with the empty
user ID and the current timestamp, and is answered with the `registered`
notification; a datagram whose `type` field is missing or not a JSON string
is dropped entirely — no registry change and no reply. -/
theorem C10_udp_register_default_and_silent_drop (s : UDP.Server)
    (msg : List (String × JValue)) (addr : String) (now : Nat)
    (sendOk : String → Bool) :
    (JValue.asString (GoMap.find msg "type") = some "register" →
     JValue.asString (GoMap.find msg "user_id") = none →
     sendOk addr = true →
     (UDP.handleMessage s msg addr now sendOk).1.clients =
        GoMap.insert s.clients addr
          { address := addr, lastSeen := now, userID := "" } ∧
     (UDP.handleMessage s msg addr now sendOk).2 =
        some (addr,
          { type := "registered",
            message := "Successfully registered for notifications",
            timestamp := now })) ∧
    (JValue.asString (GoMap.find msg "type") = none →
     (UDP.handleMessage s msg addr now sendOk).1 = s ∧
     (UDP.handleMessage s msg addr now sendOk).2 = none) := by
  constructor
  · intro htype huid hsend
    simp only [UDP.handleMessage, htype, huid, UDP.sendNotification, hsend,
      if_pos, if_true, Option.getD_none]
    exact ⟨trivial, trivial⟩
  · intro htype
    simp only [UDP.handleMessage, htype]
    exact ⟨trivial, trivial⟩

/-- Witness for `C10_udp_register_default_and_silent_drop`: a `register`
datagram whose `user_id` is a JSON number, and a datagram whose `type` is a
JSON number. -/
theorem C10_witness :
    (UDP.handleMessage { address := "s", clients := [] }
      [("type", JValue.str "register"), ("user_id", JValue.num 7)]
      "c:9" 5 (fun k => true)).1.clients =
      [("c:9", { address := "c:9", lastSeen := 5, userID := "" })] ∧
    (UDP.handleMessage { address := "s", clients := [] }
      [("type", JValue.num 3)] "c:9" 5 (fun k => true)).2 = none := by
  constructor
  · have h := (C10_udp_register_default_and_silent_drop
      { address := "s", clients := [] }
      [("type", JValue.str "register"), ("user_id", JValue.num 7)]
      "c:9" 5 (fun k => true)).1 (by decide) (by decide) rfl
    rw [h.1]
    rfl
  · exact ((C10_udp_register_default_and_silent_drop
      { address := "s", clients := [] }
      [("type", JValue.num 3)] "c:9" 5 (fun k => true)).2 (by decide)).2

/-- C6: in `ProgressHandler.UpdateProgress` and `MangaHandler.CreateManga`
an absent (`nil`) TCP or UDP server reference makes the handler skip that
fan-out silently, and the HTTP response of the triggering write is
identical across every fan-out configuration, delivery outcome and
timestamp — the write's success is never conditioned on notification
delivery. -/
theorem C6_fanout_never_affects_write_result (userID : String)
    (body : Option API.UpdateProgressRequest) (repoOk : Bool)
    (t1 t2 : Option TCP.Server) (u1 u2 : Option UDP.Server)
    (w1 w2 o1 o2 : String → Bool) (now1 now2 : Nat)
    (mbody : Option API.CreateMangaRequest) (mrepoOk : Bool)
    (v1 v2 : Option UDP.Server) (q1 q2 : String → Bool) (mn1 mn2 : Nat) :
    (API.updateProgress userID body repoOk t1 u1 w1 o1 now1).1 =
      (API.updateProgress userID body repoOk t2 u2 w2 o2 now2).1 ∧
    (API.updateProgress userID body repoOk none u1 w1 o1 now1).2.1 =
      none ∧
    (API.updateProgress userID body repoOk t1 none w1 o1 now1).2.2 =
      none ∧
    (API.createManga mbody mrepoOk v1 q1 mn1).1 =
      (API.createManga mbody mrepoOk v2 q2 mn2).1 ∧
    (API.createManga mbody mrepoOk none q1 mn1).2 = none := by
  refine ⟨?_, ?_, ?_, ?_, ?_⟩
  · unfold API.updateProgress
    by_cases hu : userID = "" <;> cases body <;> cases repoOk <;>
      simp [hu]
  · unfold API.updateProgress
    by_cases hu : userID = "" <;> cases body <;> cases repoOk <;>
      simp [hu]
  · unfold API.updateProgress
    by_cases hu : userID = "" <;> cases body <;> cases repoOk <;>
      simp [hu]
  · unfold API.createManga
    cases mbody <;> cases mrepoOk <;> simp
  · unfold API.createManga
    cases mbody <;> cases mrepoOk <;> simp

/-- C4: a Hub broadcast offers the message to every snapshot client by a
non-blocking enqueue (the total offer pass visits each entry exactly once —
it never waits on a queue): every client with queue room survives with the
message appended to its queue, while every client whose queue is full is
removed from the client set and has its channel closed during that same
pass, without affecting delivery to the remaining clients. -/
theorem C4_hub_broadcast_nonblocking_eviction (h : WS.Hub) (m : WS.Message)
    (hnodup : (WS.cids h).Nodup) :
    (WS.hubBroadcastCase h m).clients =
      h.clients.filterMap (WS.offerResult m none) ∧
    (WS.hubBroadcastCase h m).closeLog =
      h.closeLog ++ (h.clients.filter
        (fun c => (WS.offerResult m none c).isNone)).map (·.cid) ∧
    (∀ c ∈ h.clients, c.send.length < WS.sendQueueCapacity →
      ({ c with send := c.send ++ [m] } : WS.HubClient) ∈
        (WS.hubBroadcastCase h m).clients) ∧
    (∀ c ∈ h.clients, ¬ c.send.length < WS.sendQueueCapacity →
      c.cid ∉ WS.cids (WS.hubBroadcastCase h m) ∧
      c.cid ∈ (WS.hubBroadcastCase h m).closeLog) := by
  have hfst : (WS.hubBroadcastCase h m).clients =
      (WS.offerPass m none h.clients).1 := rfl
  have hsnd : (WS.hubBroadcastCase h m).closeLog =
      h.closeLog ++ (WS.offerPass m none h.clients).2 := rfl
  refine ⟨?_, ?_, ?_, ?_⟩
  · rw [hfst, WS.offerPass_fst]
  · rw [hsnd, WS.offerPass_snd]
  · intro c hc hroom
    rw [hfst, WS.offerPass_fst]
    refine List.mem_filterMap.mpr ⟨c, hc, ?_⟩
    simp [WS.offerResult, hroom]
  · intro c hc hfull
    have hres : WS.offerResult m none c = none := by
      simp [WS.offerResult, hfull]
    constructor
    · intro hmem
      simp only [WS.cids, hfst, WS.offerPass_fst] at hmem
      rcases List.mem_map.mp hmem with ⟨a, ha, ha1⟩
      rcases List.mem_filterMap.mp ha with ⟨b, hb, hb1⟩
      have hbc : b.cid = c.cid := by
        rw [← WS.offerResult_cid m none b a hb1]
        exact ha1
      have hbceq : b = c := List.inj_on_of_nodup_map hnodup hb hc hbc
      rw [hbceq, hres] at hb1
      exact absurd hb1 (by simp)
    · rw [hsnd, WS.offerPass_snd]
      refine List.mem_append_right _ ?_
      exact List.mem_map.mpr ⟨c,
        List.mem_filter.mpr ⟨hc, by simp [hres]⟩, rfl⟩

set_option maxRecDepth 8192 in
/-- Witness for `C4_hub_broadcast_nonblocking_eviction`: two clients, one
with an empty queue and one whose queue is already saturated with 256
messages; the broadcast delivers to the first and evicts the second. -/
theorem C4_witness :
    (WS.hubBroadcastCase
      { clients :=
          [{ cid := 1, id := "a", send := [] },
           { cid := 2, id := "b",
             send := List.replicate 256 { type := "chat" } }],
        closeLog := [] }
      { type := "chat", content := "hi" }).clients =
      [{ cid := 1, id := "a",
         send := [{ type := "chat", content := "hi" }] }] ∧
    (WS.hubBroadcastCase
      { clients :=
          [{ cid := 1, id := "a", send := [] },
           { cid := 2, id := "b",
             send := List.replicate 256 { type := "chat" } }],
        closeLog := [] }
      { type := "chat", content := "hi" }).closeLog = [2] := by
  have h := C4_hub_broadcast_nonblocking_eviction
    { clients :=
        [{ cid := 1, id := "a", send := [] },
         { cid := 2, id := "b",
           send := List.replicate 256 { type := "chat" } }],
      closeLog := [] }
    { type := "chat", content := "hi" } (by decide)
  constructor
  · rw [h.1]
    rfl
  · rw [h.2.1]
    rfl

namespace WS

theorem offerPass_all_room (m : Message) (l : List HubClient)
    (hroom : ∀ x ∈ l, x.send.length < sendQueueCapacity) :
    offerPass m none l =
      (l.map (fun x => { x with send := x.send ++ [m] }), []) := by
  induction l with
  | nil => rfl
  | cons c rest ih =>
    have hc := hroom c (List.mem_cons_self c rest)
    have ihr := ih (fun x hx => hroom x (List.mem_cons_of_mem c hx))
    have hres : offerResult m none c = some { c with send := c.send ++ [m] } := by
      simp [offerResult, hc]
    simp only [offerPass, hres, ihr, List.map_cons]

end WS

/-- C7: a `chat{content}` frame from a Hub client is relabeled with the
sender's server-known `userID`/`username` — any `user_id`/`username`
asserted on the inbound frame is ignored — and the relabeled message is
delivered to every currently connected client including the sender (here
under the assumption that no queue is saturated, so nobody is evicted). -/
theorem C7_chat_relabeled_broadcast_to_all (h : WS.Hub) (c : WS.HubClient)
    (frame : WS.Message) (now : Nat) (hmem : c ∈ h.clients)
    (hroom : ∀ x ∈ h.clients, x.send.length < WS.sendQueueCapacity) :
    (∀ a b, WS.readPumpChat h c
        { frame with userID := a, username := b } now =
      WS.readPumpChat h c frame now) ∧
    (WS.readPumpChat h c frame now).clients =
      h.clients.map (fun x => { x with send := x.send ++
        [{ type := "chat", userID := c.userID, username := c.username,
           content := frame.content, timestamp := now }] }) ∧
    ({ c with send := c.send ++
        [{ type := "chat", userID := c.userID, username := c.username,
           content := frame.content, timestamp := now }] } : WS.HubClient) ∈
      (WS.readPumpChat h c frame now).clients ∧
    (WS.readPumpChat h c frame now).closeLog = h.closeLog := by
  have hclients : (WS.readPumpChat h c frame now).clients =
      h.clients.map (fun x => { x with send := x.send ++
        [{ type := "chat", userID := c.userID, username := c.username,
           content := frame.content, timestamp := now }] }) := by
    show (WS.hubBroadcastCase h _).clients = _
    simp only [WS.hubBroadcastCase, WS.offerPass_all_room _ _ hroom]
  refine ⟨fun a b => rfl, hclients, ?_, ?_⟩
  · rw [hclients]
    exact List.mem_map.mpr ⟨c, hmem, rfl⟩
  · show (WS.hubBroadcastCase h _).closeLog = _
    simp only [WS.hubBroadcastCase, WS.offerPass_all_room _ _ hroom,
      List.append_nil]

/-- Witness for `C7_chat_relabeled_broadcast_to_all`: a two-client hub where
the sender asserts a bogus identity on the chat frame; both clients,
including the sender, receive the message relabeled with the sender's
registered identity. -/
theorem C7_witness :
    (WS.readPumpChat
      { clients :=
          [{ cid := 1, id := "a", userID := "u1", username := "alice",
             send := [] },
           { cid := 2, id := "b", userID := "u2", username := "bob",
             send := [] }],
        closeLog := [] }
      { cid := 1, id := "a", userID := "u1", username := "alice",
        send := [] }
      { type := "chat", userID := "forged", username := "mallory",
        content := "hi" } 9).clients =
      [{ cid := 1, id := "a", userID := "u1", username := "alice",
         send := [{ type := "chat", userID := "u1", username := "alice",
                    content := "hi", timestamp := 9 }] },
       { cid := 2, id := "b", userID := "u2", username := "bob",
         send := [{ type := "chat", userID := "u1", username := "alice",
                    content := "hi", timestamp := 9 }] }] := by
  have h := C7_chat_relabeled_broadcast_to_all
    { clients :=
        [{ cid := 1, id := "a", userID := "u1", username := "alice",
           send := [] },
         { cid := 2, id := "b", userID := "u2", username := "bob",
           send := [] }],
      closeLog := [] }
    { cid := 1, id := "a", userID := "u1", username := "alice", send := [] }
    { type := "chat", userID := "forged", username := "mallory",
      content := "hi" } 9 (by decide) (by decide)
  rw [h.2.1]
  rfl

/-- C1 counterexample: on both servers `Stop` runs `close(s.done)`, and
closing an already-closed Go channel panics, so the second `Stop` after a
completed first `Stop` panics rather than being a harmless no-op — here at
the concrete fresh servers of the composition root's addresses. -/
theorem C1_counterexample :
    (TCP.stop (TCP.newServer "127.0.0.1:8081")).bind TCP.stop =
      Except.error GoPanic.closeOfClosedChannel ∧
    (UDP.stop (UDP.newServer "127.0.0.1:8082" "127.0.0.1" 8083)).bind
      UDP.stop = Except.error GoPanic.closeOfClosedChannel :=
  ⟨rfl, rfl⟩

/-- C1 (amended): a first `Stop` on a not-yet-stopped Stream or Datagram
server succeeds, closes the listener/socket and all connections, and leaves
the client registry empty; but `Stop` is not idempotent — a second call
panics by closing the already-closed `done` channel. -/
theorem C1_first_stop_clears_second_stop_panics
    (st : TCP.Server) (su : UDP.Server)
    (ht : st.doneClosed = false) (hu : su.doneClosed = false) :
    (∃ st1, TCP.stop st = Except.ok st1 ∧ st1.clients = [] ∧
      TCP.stop st1 = Except.error GoPanic.closeOfClosedChannel) ∧
    (∃ su1, UDP.stop su = Except.ok su1 ∧ su1.clients = [] ∧
      UDP.stop su1 = Except.error GoPanic.closeOfClosedChannel) := by
  constructor
  · have hs : TCP.stop st = Except.ok { st with doneClosed := true, listenerClosed := true, clients := [] } := by
      simp [TCP.stop, ht]
    exact ⟨_, hs, rfl, by simp [TCP.stop]⟩
  · have hs : UDP.stop su = Except.ok { su with doneClosed := true, connClosed := true, clients := [] } := by
      simp [UDP.stop, hu]
    exact ⟨_, hs, rfl, by simp [UDP.stop]⟩

/-- Witness for `C1_first_stop_clears_second_stop_panics` at fresh
servers. -/
theorem C1_witness :
    (∃ st1, TCP.stop (TCP.newServer "a") = Except.ok st1 ∧
      st1.clients = [] ∧
      TCP.stop st1 = Except.error GoPanic.closeOfClosedChannel) ∧
    (∃ su1, UDP.stop (UDP.newServer "b" "ip" 1) = Except.ok su1 ∧
      su1.clients = [] ∧
      UDP.stop su1 = Except.error GoPanic.closeOfClosedChannel) :=
  C1_first_stop_clears_second_stop_panics
    (TCP.newServer "a") (UDP.newServer "b" "ip" 1) rfl rfl

namespace GoMap

theorem keys_map_fst (l : List (String × α)) (f : String × α → String × α)
    (hf : ∀ p, (f p).1 = p.1) : keys (l.map f) = keys l := by
  unfold keys
  rw [List.map_map]
  exact List.map_congr_left (fun p hp => hf p)

end GoMap

namespace TCP

theorem broadcastMessage_delivered_all_ok
    (l : List (String × Client)) (msgS : Message) (cid : String)
    (writeOk : String → Bool) (hok : ∀ k, writeOk k = true) :
    (broadcastMessage l msgS cid writeOk).2 =
      (l.filter (fun p => p.1 ≠ cid)).map (fun p => (p.1, msgS)) := by
  simp only [broadcastMessage]
  rw [List.filter_eq_self.mpr (fun p hp => by simp [hok p.1])]

theorem broadcastMessage_remaining_all_ok
    (l : List (String × Client)) (msgS : Message) (cid : String)
    (writeOk : String → Bool) (hok : ∀ k, writeOk k = true) :
    (broadcastMessage l msgS cid writeOk).1 = l := by
  simp only [broadcastMessage]
  exact List.filter_eq_self.mpr (fun p hp => by simp [hok p.1])

theorem refresh_filter_deliver (l : List (String × Client)) (cid : String)
    (now : Nat) (msgS : Message) :
    ((l.map (fun p => if p.1 = cid then (p.1, { p.2 with lastSeen := now })
        else p)).filter (fun p => p.1 ≠ cid)).map (fun p => (p.1, msgS)) =
      (l.filter (fun p => p.1 ≠ cid)).map (fun p => (p.1, msgS)) := by
  induction l with
  | nil => rfl
  | cons p rest ih =>
    by_cases hp : p.1 = cid
    · simp [hp]
      simpa using ih
    · simp [hp]
      simpa using ih

end TCP

/-- C2 counterexample: Stream clients A and B are connected and every write
succeeds; A sends `progress_update{u1, m1, 5}`.  The envelope delivered to
B has kind `progress_update` — the inbound message itself, re-stamped — not
`progress_broadcast` as the claim states (`progress_broadcast` is produced
only by the HTTP-triggered `BroadcastProgress` path). -/
theorem C2_counterexample :
    (TCP.handleClientMsg
      { address := "x", clients :=
          [("A", { id := "A" }), ("B", { id := "B" })] }
      "A" { type := "progress_update", userID := "u1", mangaID := "m1",
            chapter := 5 } 3 (fun k => true)).2.2 =
      [("B", { type := "progress_update", userID := "u1", mangaID := "m1",
               chapter := 5, timestamp := 3 })] ∧
    ((TCP.handleClientMsg
      { address := "x", clients :=
          [("A", { id := "A" }), ("B", { id := "B" })] }
      "A" { type := "progress_update", userID := "u1", mangaID := "m1",
            chapter := 5 } 3 (fun k => true)).2.2.all
        (fun d => d.2.type != "progress_broadcast")) = true := by
  exact ⟨rfl, rfl⟩

/-- C2 (amended): when a Stream client in any state sends
`progress_update{userID, mangaID, chapter}` and the broadcast writes
succeed, the server forwards the envelope itself — kind `progress_update`,
carrying those fields with a server-stamped timestamp — to every OTHER
currently registered connection (the sender excluded, nobody removed), and
replies `progress_ack{timestamp}` to the sender. -/
theorem C2_progress_update_forwarded_to_others (s : TCP.Server)
    (cid : String) (msg : TCP.Message) (now : Nat)
    (writeOk : String → Bool) (htype : msg.type = "progress_update")
    (hok : ∀ k, writeOk k = true) :
    (TCP.handleClientMsg s cid msg now writeOk).2.1 =
      { type := "progress_ack", timestamp := now } ∧
    (TCP.handleClientMsg s cid msg now writeOk).2.2 =
      (s.clients.filter (fun p => p.1 ≠ cid)).map
        (fun p => (p.1, { msg with timestamp := now })) ∧
    GoMap.keys (TCP.handleClientMsg s cid msg now writeOk).1.clients =
      GoMap.keys s.clients := by
  refine ⟨?_, ?_, ?_⟩
  · simp [TCP.handleClientMsg, htype]
  · simp only [TCP.handleClientMsg, htype]
    rw [if_neg (by decide), if_pos trivial]
    rw [TCP.broadcastMessage_delivered_all_ok _ _ _ _ hok]
    exact TCP.refresh_filter_deliver s.clients cid now _
  · simp only [TCP.handleClientMsg, htype]
    rw [if_neg (by decide), if_pos trivial]
    rw [TCP.broadcastMessage_remaining_all_ok _ _ _ _ hok]
    exact GoMap.keys_map_fst s.clients _ (fun p => by
      by_cases hp : p.1 = cid <;> simp [hp])

/-- Witness for `C2_progress_update_forwarded_to_others` at the concrete
two-client configuration of the counterexample. -/
theorem C2_witness :
    (TCP.handleClientMsg
      { address := "x", clients :=
          [("A", { id := "A" }), ("B", { id := "B" })] }
      "A" { type := "progress_update", userID := "u1", mangaID := "m1",
            chapter := 5 } 3 (fun k => true)).2.1 =
      { type := "progress_ack", timestamp := 3 } :=
  (C2_progress_update_forwarded_to_others
    { address := "x", clients :=
        [("A", { id := "A" }), ("B", { id := "B" })] }
    "A" { type := "progress_update", userID := "u1", mangaID := "m1",
          chapter := 5 } 3 (fun k => true) rfl (fun k => rfl)).1

/-- C3 counterexample: on the Datagram transport the `registered` reply
does not echo the submitted identity — two registrations from the same
address that differ only in the submitted `user_id` receive identical
replies, namely the fixed `registered{message, timestamp}` notification,
whose type has no user-identity field at all. -/
theorem C3_counterexample :
    (UDP.handleMessage { address := "s", clients := [] }
      [("type", JValue.str "register"), ("user_id", JValue.str "u1")]
      "c:1" 4 (fun k => true)).2 =
    (UDP.handleMessage { address := "s", clients := [] }
      [("type", JValue.str "register"), ("user_id", JValue.str "u2")]
      "c:1" 4 (fun k => true)).2 ∧
    (UDP.handleMessage { address := "s", clients := [] }
      [("type", JValue.str "register"), ("user_id", JValue.str "u1")]
      "c:1" 4 (fun k => true)).2 =
      some ("c:1",
        { type := "registered",
          message := "Successfully registered for notifications",
          timestamp := 4 }) :=
  ⟨rfl, rfl⟩

/-- C3 (amended): a `register` message yields a `registered` reply on every
transport, but only the Stream and Hub replies echo the submitted identity
fields (`user_id`, and for the Hub also `username`); the Datagram reply is
the fixed `registered{message, timestamp}` notification, independent of the
submitted `user_id`. -/
theorem C3_register_reply_per_transport
    (s : TCP.Server) (cid : String) (msg : TCP.Message) (now : Nat)
    (writeOk : String → Bool) (htype : msg.type = "register")
    (h : WS.Hub) (wcid : Nat) (frame : WS.Message) (wnow : Nat)
    (c : WS.HubClient)
    (hfind : h.clients.find? (fun x => x.cid == wcid) = some c)
    (hroom : c.send.length < WS.sendQueueCapacity)
    (u : UDP.Server) (umsg : List (String × JValue)) (addr : String)
    (unow : Nat) (sendOk : String → Bool)
    (hutype : JValue.asString (GoMap.find umsg "type") = some "register")
    (husend : sendOk addr = true) :
    (TCP.handleClientMsg s cid msg now writeOk).2.1 =
      { type := "registered", userID := msg.userID, timestamp := now } ∧
    WS.readPumpRegister h wcid frame wnow =
      some { h with clients := h.clients.map (fun x =>
        if x.cid = wcid then
          { cid := c.cid, id := c.id, userID := frame.userID,
            username := frame.username,
            send := c.send ++ [{ type := "registered",
                                 userID := frame.userID,
                                 username := frame.username,
                                 timestamp := wnow }] }
        else x) } ∧
    (UDP.handleMessage u umsg addr unow sendOk).2 =
      some (addr,
        { type := "registered",
          message := "Successfully registered for notifications",
          timestamp := unow }) := by
  refine ⟨?_, ?_, ?_⟩
  · simp [TCP.handleClientMsg, htype]
  · simp only [WS.readPumpRegister, hfind, WS.blockingSend,
      if_pos hroom]
  · simp only [UDP.handleMessage, hutype, UDP.sendNotification, husend,
      if_pos, if_true]

/-- Witness for `C3_register_reply_per_transport` at concrete single-client
configurations of all three transports. -/
theorem C3_witness :
    (TCP.handleClientMsg
      { address := "x", clients := [("A", { id := "A" })] } "A"
      { type := "register", userID := "u7" } 2 (fun k => true)).2.1 =
      { type := "registered", userID := "u7", timestamp := 2 } ∧
    WS.readPumpRegister
      { clients := [{ cid := 1, id := "a", send := [] }], closeLog := [] }
      1 { type := "register", userID := "u8", username := "nina" } 6 =
      some { clients := [{ cid := 1, id := "a", userID := "u8",
                           username := "nina",
                           send := [{ type := "registered",
                                      userID := "u8",
                                      username := "nina",
                                      timestamp := 6 }] }],
             closeLog := [] } ∧
    (UDP.handleMessage { address := "s", clients := [] }
      [("type", JValue.str "register"), ("user_id", JValue.str "u9")]
      "c:2" 8 (fun k => true)).2 =
      some ("c:2",
        { type := "registered",
          message := "Successfully registered for notifications",
          timestamp := 8 }) := by
  have h := C3_register_reply_per_transport
    { address := "x", clients := [("A", { id := "A" })] } "A"
    { type := "register", userID := "u7" } 2 (fun k => true) rfl
    { clients := [{ cid := 1, id := "a", send := [] }], closeLog := [] }
    1 { type := "register", userID := "u8", username := "nina" } 6
    { cid := 1, id := "a", send := [] } (by decide) (by decide)
    { address := "s", clients := [] }
    [("type", JValue.str "register"), ("user_id", JValue.str "u9")]
    "c:2" 8 (fun k => true) (by decide) rfl
  refine ⟨h.1, ?_, h.2.2⟩
  rw [h.2.1]
  rfl

/-- C8: identities are unique in every registry and removal is
exactly-once: the Stream deferred delete is idempotent and both Stream
registry operations preserve key uniqueness; the Datagram send-failure
delete and liveness sweep are idempotent and message handling preserves key
uniqueness; in the Hub every coordinator step preserves the invariant that
pointer identities are unique, no current member's queue has been closed,
and no queue is ever closed twice — in particular after an unregister the
handle is gone, a repeated unregister does not resurrect or re-close it,
and its queue is closed at most once. -/
theorem C8_registry_uniqueness_and_removal_once :
    (∀ (s : TCP.Server) (k : String),
      TCP.removeClient (TCP.removeClient s k) k = TCP.removeClient s k) ∧
    (∀ (s : TCP.Server) (addr : String) (now : Nat),
      (GoMap.keys s.clients).Nodup →
      (GoMap.keys (TCP.acceptClient s addr now).clients).Nodup ∧
      (GoMap.keys (TCP.removeClient s addr).clients).Nodup) ∧
    (∀ (cl : List (String × UDP.RegisteredClient)) (n : UDP.Notification)
        (addr : String) (f : String → Bool),
      (UDP.sendNotification (UDP.sendNotification cl n addr f).1 n addr
        f).1 = (UDP.sendNotification cl n addr f).1) ∧
    (∀ (u : UDP.Server) (now : Nat),
      UDP.cleanupTick (UDP.cleanupTick u now) now =
        UDP.cleanupTick u now) ∧
    (∀ (u : UDP.Server) (msg : List (String × JValue)) (addr : String)
        (now : Nat) (f : String → Bool),
      (GoMap.keys u.clients).Nodup →
      (GoMap.keys (UDP.handleMessage u msg addr now f).1.clients).Nodup) ∧
    (∀ (h : WS.Hub) (now : Nat) (op : WS.HubOp),
      WS.HubInv h → WS.opFresh h op → WS.HubInv (WS.hubStep now h op)) ∧
    (∀ (h : WS.Hub) (c : WS.HubClient) (now now2 : Nat), WS.HubInv h →
      c.cid ∉ WS.cids (WS.hubUnregister h c now) ∧
      c.cid ∉ WS.cids (WS.hubUnregister (WS.hubUnregister h c now) c
        now2) ∧
      (WS.hubUnregister (WS.hubUnregister h c now) c
        now2).closeLog.count c.cid ≤ 1) := by
  refine ⟨?_, ?_, ?_, ?_, ?_, ?_, ?_⟩
  · intro s k
    simp only [TCP.removeClient, GoMap.erase_erase]
  · intro s addr now hnd
    exact ⟨GoMap.keys_nodup_insert s.clients addr _ hnd,
      GoMap.keys_nodup_erase s.clients addr hnd⟩
  · intro cl n addr f
    by_cases hf : f addr <;>
      simp [UDP.sendNotification, hf, GoMap.erase_erase]
  · intro u now
    simp only [UDP.cleanupTick, List.filter_filter]
    congr 1
    apply List.filter_congr
    intro p hp
    simp
  · intro u msg addr now f hnd
    cases hty : JValue.asString (GoMap.find msg "type") with
    | none => simpa only [UDP.handleMessage, hty] using hnd
    | some t =>
      simp only [UDP.handleMessage, hty]
      by_cases hreg : t = "register"
      · rw [if_pos hreg]
        simp only [UDP.sendNotification]
        by_cases hf : f addr
        · rw [if_pos hf]
          exact GoMap.keys_nodup_insert u.clients addr _ hnd
        · rw [if_neg hf]
          exact GoMap.keys_nodup_erase _ addr
            (GoMap.keys_nodup_insert u.clients addr _ hnd)
      · rw [if_neg hreg]
        by_cases hhb : t = "heartbeat"
        · rw [if_pos hhb]
          have hkeys := GoMap.keys_map_fst u.clients
            (fun p => if p.1 = addr then (p.1, { p.2 with lastSeen := now })
              else p)
            (fun p => by by_cases hp : p.1 = addr <;> simp [hp])
          simpa only [hkeys] using hnd
        · rw [if_neg hhb]
          exact hnd
  · intro h now op hinv hfresh
    exact WS.hubInv_hubStep h now op hinv hfresh
  · intro h c now now2 hinv
    have hinv1 : WS.HubInv (WS.hubUnregister h c now) :=
      WS.hubInv_unregister h c now hinv
    have hinv2 : WS.HubInv (WS.hubUnregister (WS.hubUnregister h c now) c
        now2) := WS.hubInv_unregister _ c now2 hinv1
    exact ⟨WS.cid_not_mem_after_unregister h c now,
      WS.cid_not_mem_after_unregister _ c now2, hinv2.2.2 c.cid⟩

/-- Witness for `C8_registry_uniqueness_and_removal_once`: double removal
on a concrete Stream registry and double unregister on a concrete one-client
hub. -/
theorem C8_witness :
    TCP.removeClient (TCP.removeClient
      { address := "x", clients := [("A", { id := "A" })] } "A") "A" =
      TCP.removeClient
        { address := "x", clients := [("A", { id := "A" })] } "A" ∧
    ((WS.hubUnregister (WS.hubUnregister
        { clients := [{ cid := 5, id := "a", send := [] }],
          closeLog := [] }
        { cid := 5, id := "a", send := [] } 1)
        { cid := 5, id := "a", send := [] } 2).closeLog.count 5 ≤ 1) := by
  have h := C8_registry_uniqueness_and_removal_once
  refine ⟨h.1 { address := "x", clients := [("A", { id := "A" })] } "A",
    ?_⟩
  exact (h.2.2.2.2.2.2
    { clients := [{ cid := 5, id := "a", send := [] }], closeLog := [] }
    { cid := 5, id := "a", send := [] } 1 2
    ⟨by decide, by simp [WS.cids], by simp⟩).2.2
